import Mathlib

/-!
Verification of the forecasting core of the AQI prediction service
(`backend/time_series_models.py`), as a shallow embedding.

Modelling conventions:
* A data frame row is the target column's value (`aqi` by default) together
  with the values of the remaining columns, all as rationals.
* A date-indexed series is a list of observations, each carrying its calendar
  day as an integer day number (day granularity, as in the source).
* `pandas` sorting is modelled by a stable comparison sort
  (`List.insertionSort`) on the date key.
* The numerically fitted statistical models (`ARIMA(...).fit()`,
  `SARIMAX(...).fit()`, `pm.auto_arima`) and their `forecast`/`predict`
  methods are opaque numerical routines; they are modelled as components of
  an environment `Env M` returning `Except` values, where `M` is the type of
  fitted-model handles.  The control flow around them (preparation, period
  adjustment, fallback chains, retry, post-processing) is translated from the
  source.
* `np.random.normal(0, 5)` is modelled as an injected noise stream
  `noise : Nat -> Rat` (one draw per synthetic point index).
* `joblib.dump` persistence has no effect within a single call (the store is
  read once, at the start of `forecast_with_model`); the store is modelled as
  the read-only map `Env.store`.
-/

deriving instance DecidableEq for Except

namespace AQI

/-- Python's `str.lower()` on model names: lower-case every character. -/
def pyLower (s : String) : String := String.mk (s.data.map Char.toLower)

/-- A row of the data frame: the target column's value and the other
columns' values (`row = \x7bcol: 0 for col in df.columns\x7d` builds such a row). -/
structure Row where
  target : ℚ
  others : List ℚ
deriving DecidableEq, Repr

/-- A date-indexed observation: the calendar day (integer day number) used as
the index label, and the row of values. -/
structure Obs where
  date : ℤ
  row : Row
deriving DecidableEq, Repr

/-- A date-indexed series, as handed to the forecasting core. -/
abbrev Series := List Obs

/-- Comparison on the date key used by the `pandas` sorts
(`sort_values('date')` / `sort_index()`). -/
def dateRel (a b : Obs) : Prop := a.date ≤ b.date

instance : DecidableRel dateRel := fun a b => inferInstanceAs (Decidable (a.date ≤ b.date))

instance : IsTotal Obs dateRel := ⟨fun a b => Int.le_total a.date b.date⟩

instance : IsTrans Obs dateRel := ⟨fun _ _ _ h h' => Int.le_trans h h'⟩

/-- Sorting a frame by its date index (a comparison sort on the date key). -/
def sortByDate (s : Series) : Series := s.insertionSort dateRel

/-- Successive first differences of the target column over a frame, in frame
order: the list `df.iloc[i][target_col] - df.iloc[i-1][target_col]`. -/
def consecDiffs (s : Series) : List ℚ :=
  List.zipWith (fun a b => b.row.target - a.row.target) s s.tail

/-- The `avg_change` computation of `prepare_data_for_ts`: mean of successive
first differences of the target column, `0` when fewer than two points. -/
def avgChange (s : Series) : ℚ :=
  if 1 < s.length then (consecDiffs s).sum / ((consecDiffs s).length : ℚ)
  else 0

/-- Minimum date over a series, starting from an initial candidate
(`df.index.min()` unfolded over the remaining rows). -/
def minDateFrom (d : ℤ) (s : Series) : ℤ :=
  s.foldl (fun a x => min a x.date) d

/-- Maximum date over a series, starting from an initial candidate. -/
def maxDateFrom (d : ℤ) (s : Series) : ℤ :=
  s.foldl (fun a x => max a x.date) d

/-- The last observed date of a raw series: the maximal date label, `none`
for the empty series. -/
def lastObservedDate : Series → Option ℤ
  | [] => none
  | o :: rest => some (maxDateFrom o.date rest)

/-- The synthetic rows added by `prepare_data_for_ts` to a sorted short frame
`first :: rest`: one row per loop index `i = 1 .. 15 - len(df)` (`j = i - 1`
below), dated `earliest_date - timedelta(days=i)`, with target value
`max(0, base_val - avg_change * i + noise(i))` and `0` in every other
column. -/
def synthPoints (noise : ℕ → ℚ) (first : Obs) (rest : Series) : Series :=
  (List.range (15 - (first :: rest).length)).map (fun (j : ℕ) =>
    { date := minDateFrom first.date rest - ((j : ℤ) + 1)
      row := { target := max 0 (first.row.target
                 - avgChange (first :: rest) * ((j : ℚ) + 1) + noise (j + 1))
               others := first.row.others.map (fun _ => 0) } })

/-- Model of `TimeSeriesModels.prepare_data_for_ts`: sort by date; when fewer than 14
rows remain, append the synthetic rows and re-sort.  On an empty frame the
loop body's `df.iloc[0]` raises, which is modelled as the `Except.error`
result. -/
def prepareDataForTs (noise : ℕ → ℚ) (data : Series) : Except String Series :=
  if (sortByDate data).length < 14 then
    match sortByDate data with
    | [] => Except.error "IndexError: single positional indexer is out-of-bounds"
    | first :: rest =>
      Except.ok (sortByDate ((first :: rest) ++ synthPoints noise first rest))
  else Except.ok (sortByDate data)

/-- Python's built-in `round` on the exact value: round half to even. -/
def pyRound (x : ℚ) : ℤ :=
  let n := ⌊x⌋
  let frac := x - (n : ℚ)
  if frac < 1 / 2 then n
  else if 1 / 2 < frac then n + 1
  else if n % 2 = 0 then n else n + 1

/-- The seasonal order actually passed to the `SARIMAX` constructor by
`fit_sarimax_model`: when the prepared frame has fewer rows than the seasonal
period, the period is replaced by `min(7, len(df) // 2)`. -/
def effectiveSeasonalOrder (n : ℕ) (so : ℕ × ℕ × ℕ × ℕ) : ℕ × ℕ × ℕ × ℕ :=
  if n < so.2.2.2 then (so.1, so.2.1, so.2.2.1, min 7 (n / 2)) else so

/-- The opaque numerical collaborators of the core, indexed by the type `M`
of fitted-model handles:
* `store` — `load_model` (the pickle slot per model kind);
* `arimaFit` — `ARIMA(df[target_col], order=(5,1,0)).fit()` on a prepared frame;
* `sarimaxFit` — `SARIMAX(df[target_col], order=(1,1,1), seasonal_order=so).fit(disp=False)`;
* `autoFit` — `pm.auto_arima(df[target_col], seasonal=False, stepwise=True, max_order=6, ...)`;
* `predict` — `model.predict(n_periods=steps)` of the auto model;
* `fcst k m steps` — the `k`-th call in a request to `m.forecast(steps=steps)`
  (the attempt index `k` lets a stale model fail and a fresh refit succeed);
* `noise` — the Gaussian noise stream consumed by synthetic augmentation. -/
structure Env (M : Type) where
  store : String → Option M
  arimaFit : Series → Except String M
  sarimaxFit : Series → ℕ × ℕ × ℕ × ℕ → Except String M
  autoFit : Series → Except String M
  predict : M → ℕ → Except String (ℕ → ℚ)
  fcst : ℕ → M → ℕ → Except String (ℕ → ℚ)
  noise : ℕ → ℚ

variable {M : Type}

/-- Model of `TimeSeriesModels.fit_arima_model`: prepare, then fit the fixed-order
(5,1,0) ARIMA; a fit-time exception propagates (there is no handler). -/
def fitArimaModel (env : Env M) (data : Series) : Except String M :=
  match prepareDataForTs env.noise data with
  | Except.error e => Except.error e
  | Except.ok df => env.arimaFit df

/-- Model of `TimeSeriesModels.auto_arima_forecast`: prepare, run the automatic order
search, and return the preview forecast together with the model. -/
def autoArimaForecast (env : Env M) (data : Series) (steps : ℕ) :
    Except String ((ℕ → ℚ) × M) :=
  match prepareDataForTs env.noise data with
  | Except.error e => Except.error e
  | Except.ok df =>
    match env.autoFit df with
    | Except.error e => Except.error e
    | Except.ok m =>
      match env.predict m steps with
      | Except.error e => Except.error e
      | Except.ok f => Except.ok (f, m)

/-- Model of `TimeSeriesModels.fit_sarimax_model`: prepare, shrink the seasonal period
when the frame is shorter than it, try the seasonal fit, and on a fit-time
exception fall back to `fit_arima_model` on the original argument. -/
def fitSarimaxModel (env : Env M) (data : Series) (so : ℕ × ℕ × ℕ × ℕ) :
    Except String M :=
  match prepareDataForTs env.noise data with
  | Except.error e => Except.error e
  | Except.ok df =>
    match env.sarimaxFit df (effectiveSeasonalOrder df.length so) with
    | Except.ok m => Except.ok m
    | Except.error _ => fitArimaModel env data

/-- Model of `TimeSeriesModels.get_best_model_for_data`: with at least 14 raw points
try SARIMAX, then auto ARIMA, then fixed-order ARIMA; with fewer, try auto
ARIMA, then fixed-order ARIMA. -/
def getBestModelForData (env : Env M) (data : Series) : Except String M :=
  if 14 ≤ data.length then
    match fitSarimaxModel env data (1, 1, 1, 7) with
    | Except.ok m => Except.ok m
    | Except.error _ =>
      match autoArimaForecast env data 7 with
      | Except.ok fm => Except.ok fm.2
      | Except.error _ => fitArimaModel env data
  else
    match autoArimaForecast env data 7 with
    | Except.ok fm => Except.ok fm.2
    | Except.error _ => fitArimaModel env data

/-- The model-name dispatch shared by the fit and the refit blocks of
`forecast_with_model`: `'arima'` and `'sarimax'` (lower-cased) select their
fitters, anything else defaults to the automatic order search. -/
def fitForName (env : Env M) (modelName : String) (df : Series) : Except String M :=
  if pyLower modelName = "arima" then fitArimaModel env df
  else if pyLower modelName = "sarimax" then fitSarimaxModel env df (1, 1, 1, 7)
  else
    match autoArimaForecast env df 7 with
    | Except.error e => Except.error e
    | Except.ok fm => Except.ok fm.2

/-- A forecast output row of `forecast_with_model`: a date and the
post-processed predicted value. -/
structure FPoint where
  date : ℤ
  value : ℚ
deriving DecidableEq, Repr

/-- The load-or-fit block of `forecast_with_model`: consult the store first;
when no stored model exists, fit one for the requested name. -/
def loadOrFit (env : Env M) (modelName : String) (df : Series) : Except String M :=
  match env.store modelName with
  | some m => Except.ok m
  | none => fitForName env modelName df

/-- The forecast block of `forecast_with_model`: try `model.forecast`; on an
exception, refit for the same name and retry the forecast exactly once — a
failure of the retried forecast propagates. -/
def forecastRetry (env : Env M) (modelName : String) (df : Series) (model : M)
    (steps : ℕ) : Except String (ℕ → ℚ) :=
  match env.fcst 0 model steps with
  | Except.ok f => Except.ok f
  | Except.error _ =>
    match fitForName env modelName df with
    | Except.error e => Except.error e
    | Except.ok model2 => env.fcst 1 model2 steps

/-- Model of `TimeSeriesModels.forecast_with_model`: prepare, read the last prepared
date, load the stored model or fit one for the requested name, forecast with
one refit-and-retry on failure, then attach the dates
`last_date + 1 .. last_date + steps` and post-process every value with
`max(0, round(x))`. -/
def forecastWithModel (env : Env M) (modelName : String) (data : Series)
    (steps : ℕ) : Except String (List FPoint) :=
  match prepareDataForTs env.noise data with
  | Except.error e => Except.error e
  | Except.ok df =>
    match df.getLast? with
    | none => Except.error "IndexError: index -1 is out of bounds"
    | some lastObs =>
      match loadOrFit env modelName df with
      | Except.error e => Except.error e
      | Except.ok model =>
        match forecastRetry env modelName df model steps with
        | Except.error e => Except.error e
        | Except.ok f =>
          Except.ok ((List.range steps).map (fun (i : ℕ) =>
            { date := lastObs.date + ((i : ℤ) + 1)
              value := ((max 0 (pyRound (f i)) : ℤ) : ℚ) }))

/-- A wire-level forecast point after the caller attaches the prediction
flag (`forecast_df['predicted'] = True` in `main.py`). -/
structure TPoint where
  date : ℤ
  value : ℚ
  isForecast : Bool
deriving DecidableEq, Repr

/-- The caller-side tagging step: every row returned by
`forecast_with_model` is marked as a forecast point. -/
def tagForecast (ps : List FPoint) : List TPoint :=
  ps.map (fun p => { date := p.date, value := p.value, isForecast := true })

/-! ### Facts about the date sort and the date extrema -/

theorem sortByDate_perm (s : Series) : (sortByDate s).Perm s :=
  List.perm_insertionSort dateRel s

theorem mem_sortByDate {s : Series} {x : Obs} : x ∈ sortByDate s ↔ x ∈ s :=
  (sortByDate_perm s).mem_iff

theorem sortByDate_sorted (s : Series) : (sortByDate s).Sorted dateRel :=
  List.sorted_insertionSort dateRel s

theorem sortByDate_length (s : Series) : (sortByDate s).length = s.length :=
  (sortByDate_perm s).length_eq

theorem sortByDate_of_sorted {s : Series} (h : s.Sorted dateRel) : sortByDate s = s :=
  h.insertionSort_eq

theorem minDateFrom_le_init (d : ℤ) (s : Series) : minDateFrom d s ≤ d := by
  induction s generalizing d with
  | nil => exact le_refl d
  | cons x t ih =>
    have h := ih (min d x.date)
    exact le_trans h (min_le_left _ _)

theorem minDateFrom_le_of_mem {s : Series} (d : ℤ) {x : Obs} (hx : x ∈ s) :
    minDateFrom d s ≤ x.date := by
  induction s generalizing d with
  | nil => cases hx
  | cons y t ih =>
    rcases List.mem_cons.1 hx with rfl | hx'
    · exact le_trans (minDateFrom_le_init (min d x.date) t) (min_le_right _ _)
    · exact ih _ hx'

theorem init_le_maxDateFrom (d : ℤ) (s : Series) : d ≤ maxDateFrom d s := by
  induction s generalizing d with
  | nil => exact le_refl d
  | cons x t ih =>
    exact le_trans (le_max_left d x.date) (ih (max d x.date))

theorem le_maxDateFrom_of_mem {s : Series} (d : ℤ) {x : Obs} (hx : x ∈ s) :
    x.date ≤ maxDateFrom d s := by
  induction s generalizing d with
  | nil => cases hx
  | cons y t ih =>
    rcases List.mem_cons.1 hx with rfl | hx'
    · exact le_trans (le_max_right d x.date) (init_le_maxDateFrom (max d x.date) t)
    · exact ih _ hx'

theorem maxDateFrom_eq_init_or_mem (d : ℤ) (s : Series) :
    maxDateFrom d s = d ∨ ∃ x ∈ s, maxDateFrom d s = x.date := by
  induction s generalizing d with
  | nil => exact Or.inl rfl
  | cons y t ih =>
    have key : maxDateFrom d (y :: t) = maxDateFrom (max d y.date) t := rfl
    rcases ih (max d y.date) with h | ⟨x, hx, hxd⟩
    · rcases max_choice d y.date with hm | hm
      · exact Or.inl (by rw [key, h, hm])
      · exact Or.inr ⟨y, List.mem_cons_self y t, by rw [key, h, hm]⟩
    · exact Or.inr ⟨x, List.mem_cons_of_mem y hx, by rw [key, hxd]⟩

theorem lastObservedDate_isSome {data : Series} (h : data ≠ []) :
    ∃ D, lastObservedDate data = some D := by
  cases data with
  | nil => exact absurd rfl h
  | cons o rest => exact ⟨maxDateFrom o.date rest, rfl⟩

theorem le_lastObservedDate {data : Series} {D : ℤ}
    (hD : lastObservedDate data = some D) {x : Obs} (hx : x ∈ data) : x.date ≤ D := by
  cases data with
  | nil => cases hx
  | cons o rest =>
    cases hD
    rcases List.mem_cons.1 hx with rfl | hx'
    · exact init_le_maxDateFrom x.date rest
    · exact le_maxDateFrom_of_mem o.date hx'

theorem lastObservedDate_mem {data : Series} {D : ℤ}
    (hD : lastObservedDate data = some D) : ∃ x ∈ data, x.date = D := by
  cases data with
  | nil => cases hD
  | cons o rest =>
    cases hD
    rcases maxDateFrom_eq_init_or_mem o.date rest with h | ⟨x, hx, hxd⟩
    · exact ⟨o, List.mem_cons_self o rest, h.symm⟩
    · exact ⟨x, List.mem_cons_of_mem o hx, hxd.symm⟩

theorem sorted_last_max {l : Series} (hs : l.Sorted dateRel) {last : Obs}
    (hl : l.getLast? = some last) : ∀ x ∈ l, x.date ≤ last.date := by
  obtain ⟨ys, rfl⟩ := List.getLast?_eq_some_iff.1 hl
  intro x hx
  rcases List.mem_append.1 hx with hx | hx
  · exact (List.pairwise_append.1 hs).2.2 x hx last (List.mem_singleton_self last)
  · rw [List.mem_singleton.1 hx]

/-! ### Characterization of `prepare_data_for_ts` -/

theorem prepare_cases {noise : ℕ → ℚ} {data df : Series}
    (h : prepareDataForTs noise data = Except.ok df) :
    (14 ≤ data.length ∧ df = sortByDate data) ∨
    (data.length < 14 ∧ ∃ first rest, sortByDate data = first :: rest ∧
      df = sortByDate ((first :: rest) ++ synthPoints noise first rest)) := by
  unfold prepareDataForTs at h
  by_cases hlen : (sortByDate data).length < 14
  · rw [if_pos hlen] at h
    have hlen' : data.length < 14 := by rw [← sortByDate_length data]; exact hlen
    cases hsort : sortByDate data with
    | nil => rw [hsort] at h; cases h
    | cons first rest =>
      rw [hsort] at h
      exact Or.inr ⟨hlen', first, rest, rfl, (Except.ok.inj h).symm⟩
  · rw [if_neg hlen] at h
    exact Or.inl ⟨by rw [← sortByDate_length data]; omega, (Except.ok.inj h).symm⟩

theorem prepare_of_long (noise : ℕ → ℚ) {data : Series} (h : 14 ≤ data.length) :
    prepareDataForTs noise data = Except.ok (sortByDate data) := by
  unfold prepareDataForTs
  rw [if_neg]
  rw [sortByDate_length]
  omega

theorem prepare_empty (noise : ℕ → ℚ) :
    prepareDataForTs noise [] =
      Except.error "IndexError: single positional indexer is out-of-bounds" := rfl

theorem prepare_ok_ne_nil {noise : ℕ → ℚ} {data df : Series}
    (h : prepareDataForTs noise data = Except.ok df) : data ≠ [] := by
  intro hnil
  rw [hnil, prepare_empty] at h
  cases h

theorem prepare_ok_of_ne_nil (noise : ℕ → ℚ) {data : Series} (h : data ≠ []) :
    ∃ df, prepareDataForTs noise data = Except.ok df := by
  unfold prepareDataForTs
  by_cases hlen : (sortByDate data).length < 14
  · cases hsort : sortByDate data with
    | nil =>
      exfalso
      apply h
      have := sortByDate_length data
      rw [hsort] at this
      exact List.length_eq_zero.1 this.symm
    | cons first rest =>
      rw [hsort] at hlen
      exact ⟨_, by rw [if_pos hlen]⟩
  · exact ⟨_, by rw [if_neg hlen]⟩

theorem mem_synthPoints_date {noise : ℕ → ℚ} {first : Obs} {rest : Series}
    {x : Obs} (hx : x ∈ synthPoints noise first rest) :
    x.date < minDateFrom first.date rest := by
  unfold synthPoints at hx
  obtain ⟨j, _, rfl⟩ := List.mem_map.1 hx
  show minDateFrom first.date rest - ((j : ℤ) + 1) < minDateFrom first.date rest
  omega

theorem prepare_ok_spec {noise : ℕ → ℚ} {data df : Series}
    (h : prepareDataForTs noise data = Except.ok df) :
    ∃ synth : Series, df.Perm (data ++ synth) ∧
      ∀ x ∈ synth, ∀ y ∈ data, x.date < y.date := by
  rcases prepare_cases h with ⟨_, rfl⟩ | ⟨_, first, rest, hsort, rfl⟩
  · exact ⟨[], by simpa using sortByDate_perm data, fun x hx => absurd hx (by simp)⟩
  · refine ⟨synthPoints noise first rest, ?_, ?_⟩
    · have h1 := sortByDate_perm ((first :: rest) ++ synthPoints noise first rest)
      have hfr : (first :: rest).Perm data := by
        rw [← hsort]; exact sortByDate_perm data
      exact h1.trans (hfr.append_right _)
    · intro x hx y hy
      have hxd := mem_synthPoints_date hx
      have hy' : y ∈ first :: rest := by rw [← hsort]; exact mem_sortByDate.2 hy
      rcases List.mem_cons.1 hy' with rfl | hy''
      · exact lt_of_lt_of_le hxd (minDateFrom_le_init _ _)
      · exact lt_of_lt_of_le hxd (minDateFrom_le_of_mem _ hy'')

theorem prepare_ok_sorted {noise : ℕ → ℚ} {data df : Series}
    (h : prepareDataForTs noise data = Except.ok df) : df.Sorted dateRel := by
  rcases prepare_cases h with ⟨_, rfl⟩ | ⟨_, first, rest, _, rfl⟩
  · exact sortByDate_sorted data
  · exact sortByDate_sorted _

theorem prepare_ok_length {noise : ℕ → ℚ} {data df : Series}
    (h : prepareDataForTs noise data = Except.ok df) : 14 ≤ df.length := by
  rcases prepare_cases h with ⟨hlen, rfl⟩ | ⟨hlen, first, rest, hsort, rfl⟩
  · rw [sortByDate_length]; exact hlen
  · rw [sortByDate_length, List.length_append]
    have hfr : (first :: rest).length = data.length := by
      rw [← hsort, sortByDate_length]
    have hsy : (synthPoints noise first rest).length = 15 - (first :: rest).length := by
      unfold synthPoints
      rw [List.length_map, List.length_range]
    have hpos : 0 < (first :: rest).length := by simp
    omega

theorem prepare_lastDate {noise : ℕ → ℚ} {data df : Series} {last : Obs}
    (h : prepareDataForTs noise data = Except.ok df)
    (hl : df.getLast? = some last) : lastObservedDate data = some last.date := by
  obtain ⟨synth, hperm, hdates⟩ := prepare_ok_spec h
  have hdata : data ≠ [] := prepare_ok_ne_nil h
  obtain ⟨D, hD⟩ := lastObservedDate_isSome hdata
  have hmax : ∀ x ∈ df, x.date ≤ last.date := sorted_last_max (prepare_ok_sorted h) hl
  have hlast_in : last ∈ data ++ synth :=
    hperm.subset (List.mem_of_getLast?_eq_some hl)
  obtain ⟨o0, ho0⟩ : ∃ o, o ∈ data := by
    cases data with
    | nil => exact absurd rfl hdata
    | cons a t => exact ⟨a, List.mem_cons_self a t⟩
  have hlast_data : last ∈ data := by
    rcases List.mem_append.1 hlast_in with h1 | h2
    · exact h1
    · exfalso
      have hlt := hdates last h2 o0 ho0
      have hle := hmax o0 (hperm.mem_iff.2 (List.mem_append_left _ ho0))
      omega
  have h1 : D ≤ last.date := by
    obtain ⟨x, hx, hxD⟩ := lastObservedDate_mem hD
    rw [← hxD]
    exact hmax x (hperm.mem_iff.2 (List.mem_append_left _ hx))
  have h2 : last.date ≤ D := le_lastObservedDate hD hlast_data
  rw [hD]
  congr 1
  omega

/-! ### Inversion of the forecasting engine -/

theorem forecastWithModel_ok_inv {env : Env M} {name : String} {data : Series}
    {steps : ℕ} {out : List FPoint}
    (h : forecastWithModel env name data steps = Except.ok out) :
    ∃ (df : Series) (last : Obs) (f : ℕ → ℚ),
      prepareDataForTs env.noise data = Except.ok df ∧
      df.getLast? = some last ∧
      out = (List.range steps).map (fun (i : ℕ) =>
        { date := last.date + ((i : ℤ) + 1)
          value := ((max 0 (pyRound (f i)) : ℤ) : ℚ) }) := by
  unfold forecastWithModel at h
  cases hp : prepareDataForTs env.noise data with
  | error e => rw [hp] at h; cases h
  | ok df =>
    rw [hp] at h
    dsimp only at h
    cases hl : df.getLast? with
    | none => rw [hl] at h; cases h
    | some last =>
      rw [hl] at h
      dsimp only at h
      cases hm : loadOrFit env name df with
      | error e => rw [hm] at h; cases h
      | ok model =>
        rw [hm] at h
        dsimp only at h
        cases hf : forecastRetry env name df model steps with
        | error e => rw [hf] at h; cases h
        | ok f =>
          rw [hf] at h
          dsimp only at h
          exact ⟨df, last, f, rfl, hl, (Except.ok.inj h).symm⟩

/-! ### Concrete fixtures used by the witnesses and counterexamples -/

/-- A 14-point date-indexed series (days 1..14, constant target 100). -/
def baseData : Series :=
  [⟨1, ⟨100, []⟩⟩, ⟨2, ⟨100, []⟩⟩, ⟨3, ⟨100, []⟩⟩, ⟨4, ⟨100, []⟩⟩, ⟨5, ⟨100, []⟩⟩,
   ⟨6, ⟨100, []⟩⟩, ⟨7, ⟨100, []⟩⟩, ⟨8, ⟨100, []⟩⟩, ⟨9, ⟨100, []⟩⟩, ⟨10, ⟨100, []⟩⟩,
   ⟨11, ⟨100, []⟩⟩, ⟨12, ⟨100, []⟩⟩, ⟨13, ⟨100, []⟩⟩, ⟨14, ⟨100, []⟩⟩]

/-- A 5-point date-indexed series (days 100..104, constant target 50), short
enough to trigger synthetic augmentation. -/
def series5 : Series :=
  [⟨100, ⟨50, []⟩⟩, ⟨101, ⟨50, []⟩⟩, ⟨102, ⟨50, []⟩⟩, ⟨103, ⟨50, []⟩⟩, ⟨104, ⟨50, []⟩⟩]

/-- An environment in which every numerical routine succeeds (model handles
1 = fixed-order ARIMA fit, 2 = auto search fit, 3 = seasonal fit), the store
is empty, and the noise stream is zero. -/
def testEnv : Env ℕ where
  store := fun _ => none
  arimaFit := fun _ => Except.ok 1
  sarimaxFit := fun _ _ => Except.ok 3
  autoFit := fun _ => Except.ok 2
  predict := fun _ _ => Except.ok (fun _ => 0)
  fcst := fun _ _ _ => Except.ok (fun _ => (100 : ℚ))
  noise := fun _ => 0

/-- The forecast frame produced by `testEnv` on `baseData` with 7 steps. -/
def baseOut : List FPoint :=
  (List.range 7).map (fun (i : ℕ) =>
    { date := (14 : ℤ) + ((i : ℤ) + 1), value := ((max 0 (pyRound (100 : ℚ)) : ℤ) : ℚ) })

/-! ### The claims -/

/-- C1: for every non-empty date-indexed series and every step count, a
successful run of `forecast_with_model` returns exactly `steps` points,
dated on the `steps` consecutive calendar days immediately following the
last observed date of the series (no gaps, no weekends skipped), and the
caller tags every one of them as a forecast point. -/
theorem forecast_horizon_consecutive {env : Env M} {name : String}
    {data : Series} {steps : ℕ} {out : List FPoint}
    (h : forecastWithModel env name data steps = Except.ok out) :
    ∃ D, lastObservedDate data = some D ∧
      out.length = steps ∧
      out.map (fun p => p.date) = (List.range steps).map (fun (i : ℕ) => D + ((i : ℤ) + 1)) ∧
      ∀ p ∈ tagForecast out, p.isForecast = true := by
  obtain ⟨df, last, f, hdf, hlast, rfl⟩ := forecastWithModel_ok_inv h
  refine ⟨last.date, prepare_lastDate hdf hlast, by simp, ?_, ?_⟩
  · rw [List.map_map]
    rfl
  · intro p hp
    obtain ⟨q, _, rfl⟩ := List.mem_map.1 hp
    rfl

/-- C1 witness: a concrete successful run on the 14-point series returns 7
points dated on days 15..21. -/
theorem forecast_horizon_consecutive_witness :
    ∃ D, lastObservedDate baseData = some D ∧
      baseOut.length = 7 ∧
      baseOut.map (fun p => p.date) = (List.range 7).map (fun (i : ℕ) => D + ((i : ℤ) + 1)) ∧
      ∀ p ∈ tagForecast baseOut, p.isForecast = true :=
  @forecast_horizon_consecutive ℕ testEnv "arima" baseData 7 baseOut (by rfl)

/-- C2: every value returned by `forecast_with_model` is the result of
`max(0, round(x))`, hence a non-negative whole number. -/
theorem forecast_values_nonneg_integer {env : Env M} {name : String}
    {data : Series} {steps : ℕ} {out : List FPoint}
    (h : forecastWithModel env name data steps = Except.ok out) :
    ∀ p ∈ out, (∃ x : ℚ, p.value = ((max 0 (pyRound x) : ℤ) : ℚ)) ∧
      0 ≤ p.value ∧ p.value.den = 1 := by
  obtain ⟨df, last, f, hdf, hlast, rfl⟩ := forecastWithModel_ok_inv h
  intro p hp
  obtain ⟨i, _, rfl⟩ := List.mem_map.1 hp
  refine ⟨⟨f i, rfl⟩, ?_, Rat.den_intCast _⟩
  show (0 : ℚ) ≤ ((max 0 (pyRound (f i)) : ℤ) : ℚ)
  have h0 : (0 : ℤ) ≤ max 0 (pyRound (f i)) := le_max_left 0 _
  exact_mod_cast h0

/-- C2 witness: the first value of a concrete successful run is a
non-negative whole number of the shape `max(0, round(x))`. -/
theorem forecast_values_nonneg_integer_witness :
    (∃ x : ℚ, (FPoint.mk 15 ((max 0 (pyRound (100 : ℚ)) : ℤ) : ℚ)).value =
      ((max 0 (pyRound x) : ℤ) : ℚ)) ∧
    0 ≤ (FPoint.mk 15 ((max 0 (pyRound (100 : ℚ)) : ℤ) : ℚ)).value ∧
    (FPoint.mk 15 ((max 0 (pyRound (100 : ℚ)) : ℤ) : ℚ)).value.den = 1 :=
  @forecast_values_nonneg_integer ℕ testEnv "arima" baseData 7 baseOut (by rfl)
    (FPoint.mk 15 ((max 0 (pyRound (100 : ℚ)) : ℤ) : ℚ))
    (List.mem_map.2 ⟨0, List.mem_range.2 (by omega), rfl⟩)

/-- An environment identical to `testEnv` except that the seasonal fit
always raises. -/
def sarimaxFailEnv : Env ℕ :=
  { testEnv with sarimaxFit := fun _ _ => Except.error "LinAlgError" }

/-- An environment in which both the seasonal fit and the fixed-order ARIMA
fit always raise. -/
def bothFailEnv : Env ℕ :=
  { testEnv with
    sarimaxFit := fun _ _ => Except.error "LinAlgError"
    arimaFit := fun _ => Except.error "LinAlgError" }

/-- C3 counterexample: requesting the unknown model kind `"prophet"` (no
stored model of that name) does not raise any error — the engine silently
produces a forecast via the default automatic-search path, the same output
as for any other kind, contradicting the claimed immediate
`InvalidSpecError`. -/
theorem unknown_kind_not_rejected :
    forecastWithModel testEnv "prophet" baseData 7 = Except.ok baseOut := by rfl

/-- C3 (amended): an unknown model kind is not rejected; when the store has
no model under the requested name, every name that is neither `arima` nor
`sarimax` (after lower-casing) is handled identically by the default
automatic-order-search fallback, so the requested kind is silently
substituted rather than surfaced as an error. -/
theorem unknown_kind_defaults_to_auto {env : Env M} {n₁ n₂ : String}
    {data : Series} {steps : ℕ}
    (h₁ : pyLower n₁ ≠ "arima") (h₁' : pyLower n₁ ≠ "sarimax")
    (h₂ : pyLower n₂ ≠ "arima") (h₂' : pyLower n₂ ≠ "sarimax")
    (hs : env.store n₁ = env.store n₂) :
    forecastWithModel env n₁ data steps = forecastWithModel env n₂ data steps := by
  have hfit : ∀ df : Series, fitForName env n₁ df = fitForName env n₂ df := by
    intro df
    unfold fitForName
    rw [if_neg h₁, if_neg h₁', if_neg h₂, if_neg h₂']
  have hload : ∀ df : Series, loadOrFit env n₁ df = loadOrFit env n₂ df := by
    intro df
    unfold loadOrFit
    rw [hs, hfit]
  have hretry : ∀ (df : Series) (m : M),
      forecastRetry env n₁ df m steps = forecastRetry env n₂ df m steps := by
    intro df m
    unfold forecastRetry
    rw [hfit]
  unfold forecastWithModel
  cases prepareDataForTs env.noise data with
  | error e => rfl
  | ok df =>
    dsimp only
    cases df.getLast? with
    | none => rfl
    | some last =>
      dsimp only
      rw [hload df]
      cases loadOrFit env n₂ df with
      | error e => rfl
      | ok model =>
        dsimp only
        rw [hretry df model]

/-- C3 witness: two distinct unknown kinds produce identical behaviour on a
concrete run. -/
theorem unknown_kind_defaults_to_auto_witness :
    forecastWithModel testEnv "prophet" baseData 7 =
      forecastWithModel testEnv "xgboost" baseData 7 :=
  @unknown_kind_defaults_to_auto ℕ testEnv "prophet" "xgboost" baseData 7
    (by decide) (by decide) (by decide) (by decide) rfl

/-- C5 counterexample: for a prepared series of length 10 and a requested
seasonal period of 7 the shrink condition `len(df) < period` is false, so
the period is not shrunk to ≤ 5 — it stays 7, contradicting the claimed
instance. -/
theorem seasonal_period_not_shrunk_at_length10 :
    (effectiveSeasonalOrder 10 (1, 1, 1, 7)).2.2.2 = 7 ∧
    ¬ (effectiveSeasonalOrder 10 (1, 1, 1, 7)).2.2.2 ≤ 5 := by decide

/-- C5 (amended): the seasonal period is shrunk to `min(7, len // 2)` only
when the prepared series is strictly shorter than the requested period (and
this adjusted order is exactly what the seasonal fit receives); for a
prepared series of length 10 and requested period 7 the condition `10 < 7`
fails, so no shrink happens and the period 7 is used as requested. -/
theorem seasonal_period_shrink_policy :
    (∀ (n p q r s : ℕ), n < s →
      effectiveSeasonalOrder n (p, q, r, s) = (p, q, r, min 7 (n / 2))) ∧
    effectiveSeasonalOrder 10 (1, 1, 1, 7) = (1, 1, 1, 7) ∧
    (∀ (M : Type) (env : Env M) (data : Series) (so : ℕ × ℕ × ℕ × ℕ)
        (df : Series), prepareDataForTs env.noise data = Except.ok df →
      fitSarimaxModel env data so =
        (match env.sarimaxFit df (effectiveSeasonalOrder df.length so) with
         | Except.ok m => Except.ok m
         | Except.error _ => fitArimaModel env data)) := by
  refine ⟨?_, by decide, ?_⟩
  · intro n p q r s h
    unfold effectiveSeasonalOrder
    rw [if_pos h]
  · intro M env data so df hdf
    unfold fitSarimaxModel
    rw [hdf]

/-- C5 witness: a concrete shrink (length 3, period 7 gives period
`min 7 1 = 1`) and a concrete run of the seasonal fitter. -/
theorem seasonal_period_shrink_policy_witness :
    effectiveSeasonalOrder 3 (1, 1, 1, 7) = (1, 1, 1, min 7 (3 / 2)) ∧
    fitSarimaxModel testEnv baseData (1, 1, 1, 7) =
      (match testEnv.sarimaxFit baseData
          (effectiveSeasonalOrder baseData.length (1, 1, 1, 7)) with
       | Except.ok m => Except.ok m
       | Except.error _ => fitArimaModel testEnv baseData) :=
  ⟨seasonal_period_shrink_policy.1 3 1 1 1 7 (by decide),
   seasonal_period_shrink_policy.2.2 ℕ testEnv baseData (1, 1, 1, 7) baseData
     (by decide)⟩

/-- C7 counterexample: when both the seasonal fit and the fixed-order
fallback fit raise, the exception escapes `fit_sarimax_model` (the fallback
`fit_arima_model` call sits outside any handler), contradicting the claim
that no fit-time exception ever escapes. -/
theorem sarimax_fit_exception_escapes :
    fitSarimaxModel bothFailEnv baseData (1, 1, 1, 7) =
      Except.error "LinAlgError" := by rfl

/-- C7 (amended): if the seasonal fit raises, `fit_sarimax_model` catches
the exception and falls back to the fixed-order ARIMA fit on the original
argument; a fit-time exception escapes `fit_sarimax_model` only when that
fixed-order fallback itself raises. -/
theorem sarimax_fit_error_falls_back {env : Env M} {data : Series}
    {so : ℕ × ℕ × ℕ × ℕ} {df : Series} {e : String}
    (hdf : prepareDataForTs env.noise data = Except.ok df)
    (hfail : env.sarimaxFit df (effectiveSeasonalOrder df.length so) =
      Except.error e) :
    fitSarimaxModel env data so = fitArimaModel env data := by
  unfold fitSarimaxModel
  rw [hdf]
  dsimp only
  rw [hfail]

/-- C7 witness: with a failing seasonal fit and a healthy fixed-order fit,
the fitter returns the fixed-order model. -/
theorem sarimax_fit_error_falls_back_witness :
    fitSarimaxModel sarimaxFailEnv baseData (1, 1, 1, 7) =
      fitArimaModel sarimaxFailEnv baseData :=
  @sarimax_fit_error_falls_back ℕ sarimaxFailEnv baseData (1, 1, 1, 7) baseData
    "LinAlgError" (by decide) rfl

/-- C4: the selection order of `get_best_model_for_data`.  With at least 14
raw points the seasonal fitter is preferred (its successful model is
returned as-is); if the seasonal fitter raises, the automatic order search
is tried, and on its failure the fixed-order fit.  With fewer than 14 raw
points the automatic order search comes first, with the fixed-order fit as
fallback.  And if the seasonal fit is forced to fail, the function still
returns a usable fitted model through the automatic-search or fixed-order
path, as long as the fixed-order fit succeeds. -/
theorem get_best_model_policy (env : Env M) (data : Series) :
    (∀ m, 14 ≤ data.length → fitSarimaxModel env data (1, 1, 1, 7) = Except.ok m →
      getBestModelForData env data = Except.ok m) ∧
    (∀ e, 14 ≤ data.length →
      fitSarimaxModel env data (1, 1, 1, 7) = Except.error e →
      getBestModelForData env data =
        (match autoArimaForecast env data 7 with
         | Except.ok fm => Except.ok fm.2
         | Except.error _ => fitArimaModel env data)) ∧
    (data.length < 14 →
      getBestModelForData env data =
        (match autoArimaForecast env data 7 with
         | Except.ok fm => Except.ok fm.2
         | Except.error _ => fitArimaModel env data)) ∧
    ((∀ (s : Series) (so : ℕ × ℕ × ℕ × ℕ), ∃ e, env.sarimaxFit s so = Except.error e) →
      ∀ m, fitArimaModel env data = Except.ok m →
      ∃ m', getBestModelForData env data = Except.ok m' ∧
        ((∃ f, autoArimaForecast env data 7 = Except.ok (f, m')) ∨
          fitArimaModel env data = Except.ok m')) := by
  have hshort : ∀ hlt : ¬ 14 ≤ data.length,
      getBestModelForData env data =
        (match autoArimaForecast env data 7 with
         | Except.ok fm => Except.ok fm.2
         | Except.error _ => fitArimaModel env data) := by
    intro hlt
    unfold getBestModelForData
    rw [if_neg hlt]
  refine ⟨?_, ?_, ?_, ?_⟩
  · intro m hlen hsar
    unfold getBestModelForData
    rw [if_pos hlen, hsar]
  · intro e hlen hsar
    unfold getBestModelForData
    rw [if_pos hlen, hsar]
  · intro hlen
    exact hshort (by omega)
  · intro hfail m harima
    by_cases hlen : 14 ≤ data.length
    · -- the seasonal fitter falls back internally to the fixed-order fit
      have hne : data ≠ [] := by
        intro hnil
        rw [hnil] at hlen
        simp at hlen
      obtain ⟨df, hdf⟩ := prepare_ok_of_ne_nil env.noise hne
      obtain ⟨e, he⟩ := hfail df (effectiveSeasonalOrder df.length (1, 1, 1, 7))
      have hsar : fitSarimaxModel env data (1, 1, 1, 7) = Except.ok m := by
        unfold fitSarimaxModel
        rw [hdf]
        dsimp only
        rw [he]
        exact harima
      refine ⟨m, ?_, Or.inr harima⟩
      unfold getBestModelForData
      rw [if_pos hlen, hsar]
    · rw [hshort hlen]
      cases hauto : autoArimaForecast env data 7 with
      | error e => exact ⟨m, harima, Or.inr harima⟩
      | ok fm => exact ⟨fm.2, rfl, Or.inl ⟨fm.1, rfl⟩⟩

/-- C4 witness: every branch of the selection policy exercised on concrete
environments — a healthy seasonal fit wins, a raising seasonal fitter falls
through to the automatic search, a short series starts at the automatic
search, and a forced seasonal failure still yields a usable model. -/
theorem get_best_model_policy_witness :
    getBestModelForData testEnv baseData = Except.ok 3 ∧
    getBestModelForData bothFailEnv baseData =
      (match autoArimaForecast bothFailEnv baseData 7 with
       | Except.ok fm => Except.ok fm.2
       | Except.error _ => fitArimaModel bothFailEnv baseData) ∧
    getBestModelForData testEnv series5 =
      (match autoArimaForecast testEnv series5 7 with
       | Except.ok fm => Except.ok fm.2
       | Except.error _ => fitArimaModel testEnv series5) ∧
    ∃ m', getBestModelForData sarimaxFailEnv baseData = Except.ok m' ∧
      ((∃ f, autoArimaForecast sarimaxFailEnv baseData 7 = Except.ok (f, m')) ∨
        fitArimaModel sarimaxFailEnv baseData = Except.ok m') :=
  ⟨(get_best_model_policy testEnv baseData).1 3 (by decide) (by rfl),
   (get_best_model_policy bothFailEnv baseData).2.1 "LinAlgError" (by decide) (by rfl),
   (get_best_model_policy testEnv series5).2.2.1 (by decide),
   (get_best_model_policy sarimaxFailEnv baseData).2.2.2
     (fun s so => ⟨"LinAlgError", rfl⟩) 1 (by rfl)⟩

theorem synthPoints_length (noise : ℕ → ℚ) (first : Obs) (rest : Series) :
    (synthPoints noise first rest).length = 15 - (first :: rest).length := by
  unfold synthPoints
  rw [List.length_map, List.length_range]

theorem prepare_short_spec {noise : ℕ → ℚ} {data : Series}
    (h1 : data ≠ []) (h2 : data.length < 14) :
    ∃ first rest,
      sortByDate data = first :: rest ∧
      prepareDataForTs noise data =
        Except.ok (sortByDate ((first :: rest) ++ synthPoints noise first rest)) ∧
      (synthPoints noise first rest).length = 15 - data.length ∧
      (∀ x ∈ synthPoints noise first rest, ∀ y ∈ data, x.date < y.date) := by
  obtain ⟨first, rest, hsort⟩ : ∃ first rest, sortByDate data = first :: rest := by
    cases hs : sortByDate data with
    | nil =>
      exfalso
      apply h1
      have := sortByDate_length data
      rw [hs] at this
      exact List.length_eq_zero.1 this.symm
    | cons a t => exact ⟨a, t, rfl⟩
  have hfr : (first :: rest).length = data.length := by
    rw [← hsort, sortByDate_length]
  refine ⟨first, rest, hsort, ?_, ?_, ?_⟩
  · unfold prepareDataForTs
    rw [hsort]
    rw [if_pos (by omega)]
  · rw [synthPoints_length]
    omega
  · intro x hx y hy
    have hxd := mem_synthPoints_date hx
    have hy' : y ∈ first :: rest := by
      rw [← hsort]
      exact mem_sortByDate.2 hy
    rcases List.mem_cons.1 hy' with rfl | hy''
    · exact lt_of_lt_of_le hxd (minDateFrom_le_init _ _)
    · exact lt_of_lt_of_le hxd (minDateFrom_le_of_mem _ hy'')

/-- C6 counterexample: on a raw series of 5 points, `prepare_data_for_ts`
produces a frame of 15 rows (it adds `15 - n` synthetic points), not 14 as
claimed. -/
theorem prepare_adds_fifteen_minus_n :
    ∃ df, prepareDataForTs (fun _ => 0) series5 = Except.ok df ∧
      df.length = 15 ∧ ¬ df.length = 14 := by
  obtain ⟨first, rest, hsort, hp, hlen, _⟩ :=
    @prepare_short_spec (fun _ => 0) series5 (by decide) (by decide)
  have hL : (sortByDate ((first :: rest) ++
      synthPoints (fun _ => 0) first rest)).length = 15 := by
    have hfr : (first :: rest).length = series5.length := by
      rw [← hsort, sortByDate_length]
    have h5 : series5.length = 5 := rfl
    rw [sortByDate_length, List.length_append, hlen]
    omega
  exact ⟨_, hp, hL, by omega⟩

/-- C6 (amended): for a non-empty date-indexed raw series with `n < 14`
points, `prepare_data_for_ts` adds exactly `15 - n` synthetic points (so
the result reaches length 15, not 14), all dated strictly before the
earliest original date; the `i`-th synthetic point (`i = j + 1` below)
carries target value `max(0, first_value - avg_change * i + noise(i))`
where `avg_change` is the mean of successive first differences (0 when
fewer than two points), all other fields 0, and the result is re-sorted
chronologically. -/
theorem prepare_short_series_augmentation {noise : ℕ → ℚ} {data : Series}
    (h1 : data ≠ []) (h2 : data.length < 14) :
    ∃ first rest,
      sortByDate data = first :: rest ∧
      prepareDataForTs noise data =
        Except.ok (sortByDate ((first :: rest) ++ synthPoints noise first rest)) ∧
      (synthPoints noise first rest).length = 15 - data.length ∧
      (∀ (j : ℕ) (hj : j < (synthPoints noise first rest).length),
        (synthPoints noise first rest).get ⟨j, hj⟩ =
          ⟨minDateFrom first.date rest - ((j : ℤ) + 1),
           ⟨max 0 (first.row.target - avgChange (first :: rest) * ((j : ℚ) + 1)
              + noise (j + 1)),
            first.row.others.map (fun _ => 0)⟩⟩) ∧
      (∀ x ∈ synthPoints noise first rest, ∀ y ∈ data, x.date < y.date) ∧
      (¬ 1 < data.length → avgChange (first :: rest) = 0) ∧
      (1 < data.length → avgChange (first :: rest) =
        (consecDiffs (first :: rest)).sum /
          ((consecDiffs (first :: rest)).length : ℚ)) := by
  obtain ⟨first, rest, hsort, hp, hlen, hdates⟩ := prepare_short_spec h1 h2
  have hfr : (first :: rest).length = data.length := by
    rw [← hsort, sortByDate_length]
  refine ⟨first, rest, hsort, hp, hlen, ?_, hdates, ?_, ?_⟩
  · intro j hj
    simp only [synthPoints, List.get_eq_getElem, List.getElem_map, List.getElem_range]
  · intro hle
    unfold avgChange
    rw [if_neg (by omega)]
  · intro hlt
    unfold avgChange
    rw [if_pos (by omega)]

/-- C6 witness: the characterization instantiated on the concrete 5-point
series with the zero noise stream. -/
theorem prepare_short_series_augmentation_witness :
    ∃ first rest,
      sortByDate series5 = first :: rest ∧
      prepareDataForTs (fun _ => 0) series5 =
        Except.ok (sortByDate ((first :: rest) ++ synthPoints (fun _ => 0) first rest)) ∧
      (synthPoints (fun _ => 0) first rest).length = 15 - series5.length ∧
      (∀ (j : ℕ) (hj : j < (synthPoints (fun _ => 0) first rest).length),
        (synthPoints (fun _ => 0) first rest).get ⟨j, hj⟩ =
          ⟨minDateFrom first.date rest - ((j : ℤ) + 1),
           ⟨max 0 (first.row.target - avgChange (first :: rest) * ((j : ℚ) + 1)
              + (fun _ => (0 : ℚ)) (j + 1)),
            first.row.others.map (fun _ => 0)⟩⟩) ∧
      (∀ x ∈ synthPoints (fun _ => 0) first rest, ∀ y ∈ series5, x.date < y.date) ∧
      (¬ 1 < series5.length → avgChange (first :: rest) = 0) ∧
      (1 < series5.length → avgChange (first :: rest) =
        (consecDiffs (first :: rest)).sum /
          ((consecDiffs (first :: rest)).length : ℚ)) :=
  @prepare_short_series_augmentation (fun _ => 0) series5 (by decide) (by decide)

/-- An environment whose first forecast attempt raises and whose retried
forecast succeeds. -/
def retryEnv : Env ℕ :=
  { testEnv with
    fcst := fun k _ _ =>
      if k = 0 then Except.error "stale model" else Except.ok (fun _ => 42) }

/-- An environment whose first forecast attempt and retried forecast both
raise. -/
def retryFailEnv : Env ℕ :=
  { testEnv with
    fcst := fun k _ _ =>
      if k = 0 then Except.error "stale model" else Except.error "retry failed" }

/-- C8: the forecast block refits and retries exactly once.  When the first
forecast raises, the engine refits for the same model name; a failure of the
retried forecast is the final error, a success of the retried forecast is
the final result; the error of a failed retry is surfaced by
`forecast_with_model` to the caller; and the engine never consults any
forecast attempt beyond the first two — replacing every attempt with index
at least 2 by any behaviour whatsoever leaves the result unchanged. -/
theorem forecast_refit_retry_once :
    (∀ (M : Type) (env : Env M) (name : String) (df : Series) (model : M)
        (steps : ℕ) (e0 e1 : String) (m1 : M),
      env.fcst 0 model steps = Except.error e0 →
      fitForName env name df = Except.ok m1 →
      env.fcst 1 m1 steps = Except.error e1 →
      forecastRetry env name df model steps = Except.error e1) ∧
    (∀ (M : Type) (env : Env M) (name : String) (df : Series) (model : M)
        (steps : ℕ) (e0 : String) (m1 : M) (f : ℕ → ℚ),
      env.fcst 0 model steps = Except.error e0 →
      fitForName env name df = Except.ok m1 →
      env.fcst 1 m1 steps = Except.ok f →
      forecastRetry env name df model steps = Except.ok f) ∧
    (∀ (M : Type) (env : Env M) (name : String) (data df : Series)
        (last : Obs) (model : M) (steps : ℕ) (e : String),
      prepareDataForTs env.noise data = Except.ok df →
      df.getLast? = some last →
      loadOrFit env name df = Except.ok model →
      forecastRetry env name df model steps = Except.error e →
      forecastWithModel env name data steps = Except.error e) ∧
    (∀ (M : Type) (env : Env M) (g : ℕ → M → ℕ → Except String (ℕ → ℚ))
        (name : String) (data : Series) (steps : ℕ),
      forecastWithModel
        { env with fcst := fun k m s => if k < 2 then env.fcst k m s else g k m s }
        name data steps = forecastWithModel env name data steps) := by
  refine ⟨?_, ?_, ?_, ?_⟩
  · intro M env name df model steps e0 e1 m1 h0 hfit h1
    unfold forecastRetry
    rw [h0]
    dsimp only
    rw [hfit]
    dsimp only
    exact h1
  · intro M env name df model steps e0 m1 f h0 hfit h1
    unfold forecastRetry
    rw [h0]
    dsimp only
    rw [hfit]
    dsimp only
    exact h1
  · intro M env name data df last model steps e hdf hlast hload hr
    unfold forecastWithModel
    rw [hdf]
    dsimp only
    rw [hlast]
    dsimp only
    rw [hload]
    dsimp only
    rw [hr]
  · intro M env g name data steps
    have hfit : ∀ df : Series,
        fitForName { env with fcst := fun k m s => if k < 2 then env.fcst k m s else g k m s }
          name df = fitForName env name df := fun _ => rfl
    have hload : ∀ df : Series,
        loadOrFit { env with fcst := fun k m s => if k < 2 then env.fcst k m s else g k m s }
          name df = loadOrFit env name df := fun _ => rfl
    have hretry : ∀ (df : Series) (m : M),
        forecastRetry { env with fcst := fun k m s => if k < 2 then env.fcst k m s else g k m s }
          name df m steps = forecastRetry env name df m steps := by
      intro df m
      unfold forecastRetry
      have h0 : (if (0 : ℕ) < 2 then env.fcst 0 m steps else g 0 m steps) =
          env.fcst 0 m steps := if_pos (by omega)
      rw [show ({ env with fcst := fun k m s => if k < 2 then env.fcst k m s else g k m s } :
          Env M).fcst 0 m steps = env.fcst 0 m steps from h0]
      cases env.fcst 0 m steps with
      | ok f => rfl
      | error e =>
        dsimp only
        rw [hfit df]
        cases fitForName env name df with
        | error e2 => rfl
        | ok m1 =>
          dsimp only
          exact if_pos (by omega)
    unfold forecastWithModel
    rw [show prepareDataForTs ({ env with
        fcst := fun k m s => if k < 2 then env.fcst k m s else g k m s } : Env M).noise data =
      prepareDataForTs env.noise data from rfl]
    cases prepareDataForTs env.noise data with
    | error e => rfl
    | ok df =>
      dsimp only
      cases df.getLast? with
      | none => rfl
      | some last =>
        dsimp only
        rw [hload df]
        cases loadOrFit env name df with
        | error e => rfl
        | ok model =>
          dsimp only
          rw [hretry df model]

/-- C8 witness: the four retry facts instantiated on concrete environments:
a double failure surfaces the second error, a successful retry returns its
values, the engine propagates a failed retry, and cutting off all attempts
beyond the first two changes nothing. -/
theorem forecast_refit_retry_once_witness :
    forecastRetry retryFailEnv "arima" baseData 1 7 = Except.error "retry failed" ∧
    forecastRetry retryEnv "arima" baseData 1 7 = Except.ok (fun _ => 42) ∧
    forecastWithModel retryFailEnv "arima" baseData 7 = Except.error "retry failed" ∧
    forecastWithModel
      { testEnv with fcst := fun k m s =>
          if k < 2 then testEnv.fcst k m s else Except.error "never reached" }
      "arima" baseData 7 = forecastWithModel testEnv "arima" baseData 7 :=
  ⟨forecast_refit_retry_once.1 ℕ retryFailEnv "arima" baseData 1 7
      "stale model" "retry failed" 1 rfl rfl rfl,
   forecast_refit_retry_once.2.1 ℕ retryEnv "arima" baseData 1 7
      "stale model" 1 (fun _ => 42) rfl rfl rfl,
   forecast_refit_retry_once.2.2.1 ℕ retryFailEnv "arima" baseData baseData
      ⟨14, ⟨100, []⟩⟩ 1 7 "retry failed" (by decide) rfl rfl rfl,
   forecast_refit_retry_once.2.2.2 ℕ testEnv
      (fun _ _ _ => Except.error "never reached") "arima" baseData 7⟩

/-- C9: `prepare_data_for_ts` never modifies or removes an existing
observation: every original (timestamp, values) pair appears unchanged in
the output (the output is a permutation of the input plus the synthetic
points), and every synthetic point is dated strictly before every original
date, so no original date can be overwritten. -/
theorem prepare_preserves_originals {noise : ℕ → ℚ} {data df : Series}
    (h : prepareDataForTs noise data = Except.ok df) :
    (∀ o ∈ data, o ∈ df) ∧
    ∃ synth : Series, df.Perm (data ++ synth) ∧
      ∀ x ∈ synth, ∀ y ∈ data, x.date < y.date := by
  obtain ⟨synth, hperm, hdates⟩ := prepare_ok_spec h
  exact ⟨fun o ho => hperm.mem_iff.2 (List.mem_append_left _ ho),
    synth, hperm, hdates⟩

/-- C9 witness: preservation on a concrete run (the 14-point series passes
through unchanged). -/
theorem prepare_preserves_originals_witness :
    (∀ o ∈ baseData, o ∈ baseData) ∧
    ∃ synth : Series, baseData.Perm (baseData ++ synth) ∧
      ∀ x ∈ synth, ∀ y ∈ baseData, x.date < y.date :=
  @prepare_preserves_originals (fun _ => 0) baseData baseData (by decide)

/-- C10: `prepare_data_for_ts` is idempotent: a series of at least 14 points
is returned unchanged apart from sorting, and re-preparing any prepared
frame (under any noise stream) returns it unchanged — which the engine
relies on when `forecast_with_model` passes an already prepared frame to
the fit functions, which prepare it again. -/
theorem prepare_idempotent :
    (∀ (noise : ℕ → ℚ) (s : Series), 14 ≤ s.length →
      prepareDataForTs noise s = Except.ok (sortByDate s)) ∧
    (∀ (noise noise' : ℕ → ℚ) (s df : Series),
      prepareDataForTs noise s = Except.ok df →
      prepareDataForTs noise' df = Except.ok df) := by
  refine ⟨fun noise s h => prepare_of_long noise h, ?_⟩
  intro noise noise' s df h
  rw [prepare_of_long noise' (prepare_ok_length h),
    sortByDate_of_sorted (prepare_ok_sorted h)]

/-- C10 witness: a 14-point series is returned sorted, and re-preparing the
prepared frame under a different noise stream returns it unchanged. -/
theorem prepare_idempotent_witness :
    prepareDataForTs (fun _ => 0) baseData = Except.ok (sortByDate baseData) ∧
    prepareDataForTs (fun _ => 1) baseData = Except.ok baseData :=
  ⟨prepare_idempotent.1 (fun _ => 0) baseData (by decide),
   prepare_idempotent.2 (fun _ => 0) (fun _ => 1) baseData baseData (by decide)⟩

end AQI
